import Mathlib

/-!
Shallow embedding of `src/index.js` of node-github-repositories-cloner.

The script is sequential orchestration around two external effects: a
paginated HTTP listing API and a git clone command.  Each effectful
function is embedded as a pure Lean function over an explicit oracle
describing the responses of the outside world, returning its result
together with a trace of the externally visible operations it performed
(HTTP GET attempts, clone invocations, directory removals).  Loops are
embedded with an explicit remaining-iteration counter; for the bounded
retry loops the counter is exactly `maxRetries - retryCount`, so the
Lean recursion mirrors the JavaScript `while`/`for` conditions.
-/

namespace Cloner

/-- A repository descriptor as used by the script: of the listing API's
response object only `name` and `fork` are ever read (`repo.name`,
`repo.fork`). -/
structure Repo where
  name : String
  fork : Bool
deriving DecidableEq, Repr

/-- A branch descriptor from the branches API: only `.name` is read
(`response.data.map((branch) => branch.name)`). -/
structure Branch where
  name : String
deriving DecidableEq, Repr

/-- Outcome of one `axios.get` attempt: a successful response with data,
an error whose `response.status` is 403 (rate limit / forbidden), or any
other error. -/
inductive ApiResp (α : Type) where
  | ok (data : α)
  | err403
  | errOther
deriving DecidableEq, Repr

/-- Outcome of the inner retry loop of `fetchAllRepos` for one page
(lines 16-46 of src/index.js). -/
inductive PageFetch where
  | success (data : List Repo)
  | fatal
  | exhausted
  | noAttempt
deriving DecidableEq, Repr

/-- Inner retry loop of `fetchAllRepos` (src/index.js lines 16-46) for a
single page.  `resp a` is the outcome of the attempt made with
`retryCount = a`; `left` is `maxRetries - retryCount`, so `left = 0` is
the loop condition `retryCount < maxRetries` failing.  Returns the loop
outcome and the list of `retryCount` values at which a GET was issued.

JS correspondence: `.ok` data hits line 22-25 (`success`), a 403 error
hits line 37 `process.exit(1)` (`fatal`), any other error increments
`retryCount` and either returns the accumulated repos at line 41 when
`retryCount === maxRetries` (`exhausted`) or delays and retries. -/
def fetchPageGo (resp : Nat → ApiResp (List Repo)) (retryCount left : Nat) :
    PageFetch × List Nat :=
  match left with
  | 0 => (.noAttempt, [])
  | Nat.succ l =>
    match resp retryCount with
    | .ok data => (.success data, [retryCount])
    | .err403 => (.fatal, [retryCount])
    | .errOther =>
      match l with
      | 0 => (.exhausted, [retryCount])
      | Nat.succ _ =>
        let r := fetchPageGo resp (retryCount + 1) l
        (r.1, retryCount :: r.2)

/-- Overall result of `fetchAllRepos`.  The function has exactly three
ways out of its `while (true)` loop: `return repos` on an empty page
(line 22), `process.exit(1)` on a 403 (line 37), and `return repos` on
retry exhaustion (line 41).  The trailing
`return repos.filter((repo) => !repo.fork)` on line 48 is after the
`while (true)` loop and is unreachable.  `diverge` stands for the loop
still running when the modelling fuel runs out. -/
inductive FetchResult where
  | emptyPage (repos : List Repo)
  | exhausted (repos : List Repo)
  | fatal
  | diverge
deriving DecidableEq, Repr

/-- Outer pagination loop of `fetchAllRepos` (src/index.js lines 14-47).
`resp page a` is the outcome of attempt `a` of fetching `page`.  The
trace lists every GET attempt as a `(page, retryCount)` pair, in order.
`repos` is the accumulator, `page` the next page to fetch; `maxRetries`
is 3 (line 12). -/
def fetchAllReposGo (resp : Nat → Nat → ApiResp (List Repo)) :
    Nat → List Repo → Nat → FetchResult × List (Nat × Nat)
  | 0, _, _ => (.diverge, [])
  | Nat.succ fuel, repos, page =>
    let pr := fetchPageGo (resp page) 0 3
    let tr := pr.2.map (fun a => (page, a))
    match pr.1 with
    | .success data =>
      if data.length = 0 then (.emptyPage repos, tr)
      else
        let r := fetchAllReposGo resp fuel (repos ++ data) (page + 1)
        (r.1, tr ++ r.2)
    | .fatal => (.fatal, tr)
    | .exhausted => (.exhausted repos, tr)
    | .noAttempt =>
      let r := fetchAllReposGo resp fuel repos page
      (r.1, tr ++ r.2)

/-- Function `fetchAllRepos` (src/index.js lines 9-49): starts at `page = 1` with
an empty accumulator. -/
def fetchAllRepos (resp : Nat → Nat → ApiResp (List Repo)) (fuel : Nat) :
    FetchResult × List (Nat × Nat) :=
  fetchAllReposGo resp fuel [] 1

/-- Retry loop of `fetchBranches` (src/index.js lines 51-80).  `resp a`
is the outcome of the attempt made with `retryCount = a`; `left` is
`maxRetries - retryCount`.  A success returns the branch names
(line 61); a 403 returns `[]` immediately (line 66); any other error
increments `retryCount` and returns `[]` when it reaches `maxRetries`
(line 73), else retries; the `return []` after the loop (line 79) is
the `left = 0` case. -/
def fetchBranchesGo (resp : Nat → ApiResp (List Branch)) (retryCount left : Nat) :
    List String :=
  match left with
  | 0 => []
  | Nat.succ l =>
    match resp retryCount with
    | .ok data => data.map Branch.name
    | .err403 => []
    | .errOther =>
      match l with
      | 0 => []
      | Nat.succ _ => fetchBranchesGo resp (retryCount + 1) l

/-- Function `fetchBranches` (src/index.js lines 51-80): `maxRetries = 3`,
starting at `retryCount = 0`. -/
def fetchBranches (resp : Nat → ApiResp (List Branch)) : List String :=
  fetchBranchesGo resp 0 3

/-- Outcome of one `git.clone` invocation inside `cloneBranch`: success
with the resulting directory entries (what `fs.readdirSync(branchPath)`
lists afterwards), or a thrown error; `leavesDir` tells whether the
failed clone left a directory behind (checked by `fs.existsSync` in the
catch block, line 148). -/
inductive CloneOutcome where
  | ok (entries : List String)
  | fail (leavesDir : Bool)
deriving DecidableEq, Repr

/-- Externally visible operations of `cloneBranch`: a clone invocation
(network access) and a recursive directory removal, tagged with the
attempt number that performed them. -/
inductive CloneEv where
  | cloneOp (attempt : Nat)
  | rmOp (attempt : Nat)
deriving DecidableEq, Repr

/-- Attempt loop of `cloneBranch` (src/index.js lines 87-159).
`outcome a` is the result of the clone issued on attempt `a`; `ex` is
whether `fs.existsSync(branchPath)` holds on entering the attempt;
`left` is `retries + 1 - attempt`, so `left = 0` is the `for` condition
`attempt <= retries` failing (then line 160 returns `false`).

JS correspondence per attempt: if the path exists, return `true` without
cloning (lines 137-142).  Otherwise clone; on success count the entries
other than `".git"` (lines 106-108): zero entries means the branch is
empty — remove the directory and return `false` (lines 110-114);
otherwise the submodule step runs under its own `try`/`catch` and the
attempt returns `true` (line 136).  On a thrown error, remove the
directory if it exists (lines 148-150) and either retry
(`attempt < retries`, lines 151-154) or return `false` (line 156).
After a failed attempt the path never exists (it was removed), so the
recursive call passes `ex = false`. -/
def cloneBranchGo (outcome : Nat → CloneOutcome) (attempt : Nat) (ex : Bool)
    (left : Nat) : Bool × List CloneEv :=
  match left with
  | 0 => (false, [])
  | Nat.succ l =>
    if ex then (true, [])
    else
      match outcome attempt with
      | .ok entries =>
        if (entries.filter (fun item => item != ".git")).length = 0 then
          (false, [.cloneOp attempt, .rmOp attempt])
        else
          (true, [.cloneOp attempt])
      | .fail leavesDir =>
        let evs : List CloneEv :=
          if leavesDir then [.cloneOp attempt, .rmOp attempt]
          else [.cloneOp attempt]
        match l with
        | 0 => (false, evs)
        | Nat.succ _ =>
          let r := cloneBranchGo outcome (attempt + 1) false l
          (r.1, evs ++ r.2)

/-- Function `cloneBranch` (src/index.js lines 86-161): attempts run from
`attempt = 1` to `retries` (default 3); `ex` is whether `branchPath`
exists when the call is made. -/
def cloneBranch (ex : Bool) (outcome : Nat → CloneOutcome) (retries : Nat) :
    Bool × List CloneEv :=
  cloneBranchGo outcome 1 ex retries

/-- The JavaScript `branch.replace("/", "-")` (src/index.js line 185):
`String.prototype.replace` with a string pattern substitutes only the
first occurrence. -/
def replaceFirstSlash : List Char → List Char
  | [] => []
  | c :: cs => if c = '/' then '-' :: cs else c :: replaceFirstSlash cs

/-- The name `branchDirName` — the directory segment computed for a branch name
on src/index.js line 185: `const branchDirName = branch.replace("/", "-")`. -/
def branchDirName (branch : String) : String :=
  ⟨replaceFirstSlash branch.data⟩

/-- The per-repository aggregate returned by `cloneRepo`
(src/index.js lines 207-211). -/
structure CloneResult where
  success : Bool
  successfulBranches : Nat
  failedBranches : Nat
deriving DecidableEq, Repr

/-- Per-branch loop of `cloneRepo` (src/index.js lines 184-196).
`branchOk i` is the boolean returned by `cloneBranch` for the branch at
position `i` of the list; `s`/`f` are the running
`successfulBranches`/`failedBranches` counters. -/
def branchLoopGo (branchOk : Nat → Bool) (i s f : Nat) :
    List String → Nat × Nat
  | [] => (s, f)
  | _ :: rest =>
    if branchOk i then branchLoopGo branchOk (i + 1) (s + 1) f rest
    else branchLoopGo branchOk (i + 1) s (f + 1) rest

/-- Function `cloneRepo` (src/index.js lines 163-216) on its non-throwing path.
`branches` is what `fetchBranches` returned; `branchOk i` is the result
of `cloneBranch` on the `i`-th branch.  Returns the `CloneResult`
(lines 178 or 207-211) together with whether the repository directory
was removed by the all-branches-failed cleanup (lines 202-205).  An
empty branch list returns `{success: false, 0, 0}` before the loop
(line 178) without removing the directory. -/
def cloneRepo (branches : List String) (branchOk : Nat → Bool) :
    CloneResult × Bool :=
  if branches.length = 0 then
    ({ success := false, successfulBranches := 0, failedBranches := 0 }, false)
  else
    let sf := branchLoopGo branchOk 0 0 0 branches
    ({ success := decide (sf.1 > 0), successfulBranches := sf.1,
       failedBranches := sf.2 },
     decide (sf.1 = 0))

/-- Externally visible operations of `cloneRootRepo`: the conditional
`mkdirSync` (lines 223-225) and the clone invocation (line 233). -/
inductive RootEv where
  | mkdir
  | cloneOp
deriving DecidableEq, Repr

/-- Function `cloneRootRepo` (src/index.js lines 218-241).  `ex` is whether
`outputDir/repo.name` exists at call time; `cloneOk` is whether the
`git.clone` call succeeds.  The existence check only guards the
`mkdirSync`; the clone is performed unconditionally (line 233), and a
thrown clone error is caught and reported as `{success: false}`
(lines 237-240). -/
def cloneRootRepo (ex : Bool) (cloneOk : Bool) : Bool × List RootEv :=
  (cloneOk, (if ex then ([] : List RootEv) else [.mkdir]) ++ [.cloneOp])

/-- Run-level counters of the orchestrator (src/index.js lines 281-284). -/
structure Totals where
  successRepos : Nat
  failedRepos : Nat
  successBranches : Nat
  failedBranches : Nat
deriving DecidableEq, Repr

/-- One iteration of the orchestrator's per-repository accounting in
branch mode (src/index.js lines 288-302): the branch counters are added
only `if (result.success)` (lines 290-293), and then the repository is
counted as successful or failed by the same flag (lines 298-302). -/
def foldResult (t : Totals) (r : CloneResult) : Totals :=
  let t1 :=
    if r.success then
      { t with successBranches := t.successBranches + r.successfulBranches,
               failedBranches := t.failedBranches + r.failedBranches }
    else t
  if r.success then { t1 with successRepos := t1.successRepos + 1 }
  else { t1 with failedRepos := t1.failedRepos + 1 }

/-! ### Helper lemmas -/

theorem replaceFirstSlash_of_not_mem :
    ∀ l : List Char, '/' ∉ l → replaceFirstSlash l = l := by
  intro l
  induction l with
  | nil => intro _; rfl
  | cons c cs ih =>
    intro h
    simp only [List.mem_cons, not_or] at h
    simp only [replaceFirstSlash,
      if_neg (show ¬c = '/' from fun hc => h.1 hc.symm), ih h.2]

theorem replaceFirstSlash_append (b : List Char) :
    ∀ a : List Char, '/' ∉ a →
      replaceFirstSlash (a ++ '/' :: b) = a ++ '-' :: b := by
  intro a
  induction a with
  | nil => intro _; simp [replaceFirstSlash]
  | cons c cs ih =>
    intro h
    simp only [List.mem_cons, not_or] at h
    simp only [List.cons_append, replaceFirstSlash,
      if_neg (show ¬c = '/' from fun hc => h.1 hc.symm), List.append_eq, ih h.2]

/-- On a fault-free listing endpoint (`pages q` served on every attempt
at page `q`), the pagination loop starting at page `p` with accumulator
`acc` returns on the first empty page `E` the accumulator extended by
pages `p, …, E - 1` in order, having issued exactly one GET for each of
pages `p, …, E`. -/
theorem fetchAllReposGo_faultfree (pages : Nat → List Repo) (E : Nat)
    (hempty : pages E = []) :
    ∀ (fuel p : Nat) (acc : List Repo),
      (∀ k, p ≤ k → k < E → pages k ≠ []) → p ≤ E → E - p < fuel →
      fetchAllReposGo (fun q _ => ApiResp.ok (pages q)) fuel acc p =
        (FetchResult.emptyPage
          (acc ++ ((List.range' p (E - p)).map pages).flatten),
         (List.range' p (E - p + 1)).map (fun q => (q, 0))) := by
  intro fuel
  induction fuel with
  | zero => intro p acc _ _ hf; omega
  | succ fuel ih =>
    intro p acc hne hpE hf
    simp only [fetchAllReposGo, fetchPageGo]
    by_cases hpe : p = E
    · subst hpe
      rw [if_pos (by simp [hempty])]
      simp [hempty]
    · have hlt : p < E := lt_of_le_of_ne hpE hpe
      have hnz : pages p ≠ [] := hne p (le_refl p) hlt
      rw [if_neg (by simpa using hnz)]
      rw [ih (p + 1) (acc ++ pages p) (fun k hk1 hk2 => hne k (by omega) hk2)
        (by omega) (by omega)]
      have h1 : E - p = (E - (p + 1)) + 1 := by omega
      rw [h1, List.range'_succ, List.range'_succ]
      simp [List.append_assoc, List.range'_succ]

/-! ### Claim theorems -/

/-- C1: the claim states that `fetchAllRepos` filters forks out on every
return path.  The filter on src/index.js line 48 sits after the
`while (true)` loop and is unreachable: with a listing of one page
containing a single forked repository followed by an empty page, the
function returns that forked repository.  The source's own line 48
documents the intent to filter, so this is a bug of the code, not of the
specification. -/
theorem fetchAllRepos_returns_fork_unfiltered :
    fetchAllRepos
        (fun p _ => if p = 1 then ApiResp.ok [⟨"forked", true⟩] else ApiResp.ok [])
        2
      = (FetchResult.emptyPage [⟨"forked", true⟩], [(1, 0), (2, 0)]) ∧
    List.any [(⟨"forked", true⟩ : Repo)] Repo.fork = true :=
  ⟨rfl, rfl⟩

/-- C2 counterexample: the claim states that every slash of the branch
name is replaced by a hyphen, so a name with two slashes would yield a
segment with no slashes and two hyphens.  The code's
`branch.replace("/", "-")` replaces only the first occurrence:
`"a/b/c"` yields `"a-b/c"`, which still contains a slash and only one
hyphen. -/
theorem branchDirName_two_slashes :
    branchDirName "a/b/c" = "a-b/c" ∧
    '/' ∈ (branchDirName "a/b/c").data ∧
    ((branchDirName "a/b/c").data.filter (fun c => c = '-')).length = 1 := by
  refine ⟨rfl, ?_, ?_⟩ <;> decide

/-- C2 amended: the directory segment is the branch name with only the
FIRST slash (if any) replaced by a hyphen: a slash-free name is
unchanged, and a name of the form `a ++ "/" ++ b` with `a` slash-free
maps to `a ++ "-" ++ b` (so `b` keeps any further slashes). -/
theorem branchDirName_first_slash_only :
    (∀ s : String, '/' ∉ s.data → branchDirName s = s) ∧
    (∀ a b : String, '/' ∉ a.data →
      branchDirName (a ++ "/" ++ b) = a ++ "-" ++ b) := by
  constructor
  · intro s h
    exact String.ext (replaceFirstSlash_of_not_mem s.data h)
  · intro a b h
    apply String.ext
    have hl : (a ++ "/" ++ b).data = a.data ++ '/' :: b.data := by
      simp [String.data_append]
    have hr : (a ++ "-" ++ b).data = a.data ++ '-' :: b.data := by
      simp [String.data_append]
    show replaceFirstSlash (a ++ "/" ++ b).data = _
    rw [hl, hr, replaceFirstSlash_append b.data a.data h]

/-- Witness for C2's amended theorem at concrete branch names. -/
theorem branchDirName_first_slash_only_witness :
    ('/' ∉ ("main" : String).data ∧ branchDirName "main" = "main") ∧
    ('/' ∉ ("feature" : String).data ∧
      branchDirName ("feature" ++ "/" ++ "x") = "feature" ++ "-" ++ "x") :=
  ⟨⟨by decide, branchDirName_first_slash_only.1 "main" (by decide)⟩,
   ⟨by decide, branchDirName_first_slash_only.2 "feature" "x" (by decide)⟩⟩

/-- C3 counterexample: the claim states that `cloneRootRepo` skips the
clone when the target path already exists.  In the code the existence
check only guards `mkdirSync`; with the path existing, the clone
operation is still performed. -/
theorem cloneRootRepo_clones_existing_path :
    cloneRootRepo true true = (true, [RootEv.cloneOp]) ∧
    RootEv.cloneOp ∈ (cloneRootRepo true true).2 := by
  refine ⟨rfl, ?_⟩; decide

/-- C3 amended: `cloneRootRepo` always performs the clone, whether or
not the target path exists; the existence check only suppresses the
`mkdirSync`, and the returned success flag is exactly the clone's
outcome. -/
theorem cloneRootRepo_always_clones (ex cloneOk : Bool) :
    RootEv.cloneOp ∈ (cloneRootRepo ex cloneOk).2 ∧
    (cloneRootRepo ex cloneOk).1 = cloneOk ∧
    (RootEv.mkdir ∈ (cloneRootRepo ex cloneOk).2 ↔ ex = false) := by
  cases ex <;> cases cloneOk <;> exact ⟨by decide, rfl, by decide⟩

/-- Witness for C3's amended theorem at a concrete input. -/
theorem cloneRootRepo_always_clones_witness :
    RootEv.cloneOp ∈ (cloneRootRepo true true).2 ∧
    (cloneRootRepo true true).1 = true ∧
    (RootEv.mkdir ∈ (cloneRootRepo true true).2 ↔ true = false) :=
  cloneRootRepo_always_clones true true

/-- C4 counterexample: the claim states branch counts are folded into
the run totals regardless of the per-repository success flag.  For a
result with `success = false` and `failedBranches = 2`, the orchestrator
adds nothing to either branch total (the fold is guarded by
`if (result.success)` on line 290); only the failed-repository counter
moves. -/
theorem foldResult_drops_failed_repo_branch_counts :
    foldResult ⟨0, 0, 0, 0⟩
        { success := false, successfulBranches := 1, failedBranches := 2 }
      = ⟨0, 1, 0, 0⟩ ∧
    (foldResult ⟨0, 0, 0, 0⟩
        { success := false, successfulBranches := 1, failedBranches := 2 }).failedBranches
      = 0 :=
  ⟨rfl, rfl⟩

/-- C4 amended: the orchestrator folds a repository's branch counts into
the run-level totals only when that repository's `success` flag is true;
when it is false the branch counts are discarded and only the
failed-repositories counter is incremented. -/
theorem foldResult_characterization (t : Totals) (r : CloneResult) :
    foldResult t r =
      if r.success then
        { successRepos := t.successRepos + 1, failedRepos := t.failedRepos,
          successBranches := t.successBranches + r.successfulBranches,
          failedBranches := t.failedBranches + r.failedBranches }
      else
        { successRepos := t.successRepos, failedRepos := t.failedRepos + 1,
          successBranches := t.successBranches,
          failedBranches := t.failedBranches } := by
  obtain ⟨s, sb, fb⟩ := r
  cases s <;> rfl

/-- C5: on a fault-free listing endpoint, `fetchAllRepos` concatenates
page contents in page order starting at page 1, and stops exactly at the
first empty page `E`: the GET trace is one request per page `1, …, E`
and no page beyond `E` is fetched. -/
theorem fetchAllRepos_pagination (pages : Nat → List Repo) (E fuel : Nat)
    (hE1 : 1 ≤ E) (hempty : pages E = [])
    (hne : ∀ k, 1 ≤ k → k < E → pages k ≠ []) (hfuel : E ≤ fuel) :
    fetchAllRepos (fun q _ => ApiResp.ok (pages q)) fuel =
      (FetchResult.emptyPage (((List.range' 1 (E - 1)).map pages).flatten),
       (List.range' 1 E).map (fun q => (q, 0))) := by
  have h := fetchAllReposGo_faultfree pages E hempty fuel 1 [] hne hE1 (by omega)
  have hE : E - 1 + 1 = E := by omega
  rw [fetchAllRepos, h, hE]
  simp

/-- Witness for C5 at a concrete two-page listing. -/
theorem fetchAllRepos_pagination_witness :
    ((fun q => if q = 1 then [(⟨"a", false⟩ : Repo)] else []) 2 = [] ∧
      (1 : Nat) ≤ 2) ∧
    fetchAllRepos
        (fun q _ =>
          ApiResp.ok (if q = 1 then [(⟨"a", false⟩ : Repo)] else []))
        2
      = (FetchResult.emptyPage [(⟨"a", false⟩ : Repo)], [(1, 0), (2, 0)]) := by
  refine ⟨⟨rfl, by decide⟩, ?_⟩
  have h := fetchAllRepos_pagination
    (fun q => if q = 1 then [(⟨"a", false⟩ : Repo)] else []) 2 2
    (by decide) rfl
    (by intro k h1 h2; interval_cases k; decide) (by decide)
  exact h

/-- Unfolding lemma: a successful attempt returns the branch names. -/
theorem fetchBranchesGo_ok (resp : Nat → ApiResp (List Branch)) (rc l : Nat)
    (d : List Branch) (h : resp rc = ApiResp.ok d) :
    fetchBranchesGo resp rc (l + 1) = d.map Branch.name := by
  simp [fetchBranchesGo, h]

/-- Unfolding lemma: a 403 attempt returns the empty list at once. -/
theorem fetchBranchesGo_err403 (resp : Nat → ApiResp (List Branch)) (rc l : Nat)
    (h : resp rc = ApiResp.err403) :
    fetchBranchesGo resp rc (l + 1) = [] := by
  simp [fetchBranchesGo, h]

/-- Unfolding lemma: another error with attempts remaining retries. -/
theorem fetchBranchesGo_errOther_step (resp : Nat → ApiResp (List Branch))
    (rc l : Nat) (h : resp rc = ApiResp.errOther) :
    fetchBranchesGo resp rc (l + 2) = fetchBranchesGo resp (rc + 1) (l + 1) := by
  simp [fetchBranchesGo, h]

/-- Unfolding lemma: another error on the last attempt returns `[]`. -/
theorem fetchBranchesGo_errOther_last (resp : Nat → ApiResp (List Branch))
    (rc : Nat) (h : resp rc = ApiResp.errOther) :
    fetchBranchesGo resp rc 1 = [] := by
  simp [fetchBranchesGo, h]

/-- C6: function `fetchBranches` is a total function of the response oracle
(never raises), and: a 403 response (after any run of other errors)
yields `[]` immediately; three non-403 errors yield `[]`; a success
(after any run of other errors) yields the branch names. -/
theorem fetchBranches_total_spec (resp : Nat → ApiResp (List Branch)) :
    (∀ k, k < 3 → (∀ i, i < k → resp i = ApiResp.errOther) →
      resp k = ApiResp.err403 → fetchBranches resp = []) ∧
    ((∀ i, i < 3 → resp i = ApiResp.errOther) → fetchBranches resp = []) ∧
    (∀ k d, k < 3 → (∀ i, i < k → resp i = ApiResp.errOther) →
      resp k = ApiResp.ok d → fetchBranches resp = d.map Branch.name) := by
  refine ⟨?_, ?_, ?_⟩
  · intro k hk hprev h403
    interval_cases k
    · exact fetchBranchesGo_err403 resp 0 2 h403
    · rw [show fetchBranches resp = fetchBranchesGo resp 0 3 from rfl,
        fetchBranchesGo_errOther_step resp 0 1 (hprev 0 (by omega))]
      exact fetchBranchesGo_err403 resp 1 1 h403
    · rw [show fetchBranches resp = fetchBranchesGo resp 0 3 from rfl,
        fetchBranchesGo_errOther_step resp 0 1 (hprev 0 (by omega)),
        fetchBranchesGo_errOther_step resp 1 0 (hprev 1 (by omega))]
      exact fetchBranchesGo_err403 resp 2 0 h403
  · intro hall
    rw [show fetchBranches resp = fetchBranchesGo resp 0 3 from rfl,
      fetchBranchesGo_errOther_step resp 0 1 (hall 0 (by omega)),
      fetchBranchesGo_errOther_step resp 1 0 (hall 1 (by omega))]
    exact fetchBranchesGo_errOther_last resp 2 (hall 2 (by omega))
  · intro k d hk hprev hok
    interval_cases k
    · exact fetchBranchesGo_ok resp 0 2 d hok
    · rw [show fetchBranches resp = fetchBranchesGo resp 0 3 from rfl,
        fetchBranchesGo_errOther_step resp 0 1 (hprev 0 (by omega))]
      exact fetchBranchesGo_ok resp 1 1 d hok
    · rw [show fetchBranches resp = fetchBranchesGo resp 0 3 from rfl,
        fetchBranchesGo_errOther_step resp 0 1 (hprev 0 (by omega)),
        fetchBranchesGo_errOther_step resp 1 0 (hprev 1 (by omega))]
      exact fetchBranchesGo_ok resp 2 0 d hok

/-- Witness for C6: a success on the second attempt after one transient
error yields the branch names. -/
theorem fetchBranches_total_spec_witness :
    fetchBranches
        (fun a => if a = 0 then ApiResp.errOther else ApiResp.ok [⟨"main"⟩])
      = ["main"] :=
  (fetchBranches_total_spec
      (fun a => if a = 0 then ApiResp.errOther else ApiResp.ok [⟨"main"⟩])).2.2
    1 [⟨"main"⟩] (by omega)
    (fun i hi => by interval_cases i; rfl) rfl

/-- C7: if the target path already exists when `cloneBranch` is invoked,
the call returns success with an empty operation trace — no clone
(network) operation and no removal is performed — so a second call on an
already-populated target is an idempotent no-op returning `true`. -/
theorem cloneBranch_skip_existing (outcome : Nat → CloneOutcome)
    (retries : Nat) (h : 1 ≤ retries) :
    cloneBranch true outcome retries = (true, []) := by
  obtain ⟨n, rfl⟩ : ∃ n, retries = n + 1 := ⟨retries - 1, by omega⟩
  rfl

/-- Witness for C7 with the default three retries. -/
theorem cloneBranch_skip_existing_witness :
    (1 : Nat) ≤ 3 ∧
    cloneBranch true (fun _ => CloneOutcome.fail false) 3 = (true, []) :=
  ⟨by decide, cloneBranch_skip_existing (fun _ => CloneOutcome.fail false) 3
    (by decide)⟩

/-- Unfolding lemma: on an absent path, a successful clone tests the
emptiness of the resulting directory. -/
theorem cloneBranchGo_ok_unfold (outcome : Nat → CloneOutcome) (a l : Nat)
    (entries : List String) (h : outcome a = CloneOutcome.ok entries) :
    cloneBranchGo outcome a false (l + 1) =
      if (entries.filter (fun item => item != ".git")).length = 0 then
        (false, [CloneEv.cloneOp a, CloneEv.rmOp a])
      else (true, [CloneEv.cloneOp a]) := by
  conv_lhs => rw [cloneBranchGo]
  simp [h]

/-- Unfolding lemma: on an absent path, a thrown clone with attempts
remaining removes any partial directory and retries. -/
theorem cloneBranchGo_fail_step (outcome : Nat → CloneOutcome) (a l : Nat)
    (b : Bool) (h : outcome a = CloneOutcome.fail b) :
    cloneBranchGo outcome a false (l + 2) =
      ((cloneBranchGo outcome (a + 1) false (l + 1)).1,
       (if b then [CloneEv.cloneOp a, CloneEv.rmOp a]
        else [CloneEv.cloneOp a]) ++
         (cloneBranchGo outcome (a + 1) false (l + 1)).2) := by
  conv_lhs => rw [cloneBranchGo]
  simp [h]

/-- If the attempts before `k` all throw and attempt `k` clones a
directory whose only entry is `.git`, the attempt loop (entered at
attempt `a ≤ k` with the path absent) removes the directory on attempt
`k` and returns `false`. -/
theorem cloneBranchGo_empty_clone (outcome : Nat → CloneOutcome) (k : Nat)
    (entries : List String) (hok : outcome k = CloneOutcome.ok entries)
    (hempty : entries.filter (fun item => item != ".git") = []) :
    ∀ (left a : Nat), 1 ≤ a → a ≤ k → k + 1 ≤ a + left →
      (∀ j, a ≤ j → j < k → ∃ b, outcome j = CloneOutcome.fail b) →
      (cloneBranchGo outcome a false left).1 = false ∧
      CloneEv.rmOp k ∈ (cloneBranchGo outcome a false left).2 := by
  intro left
  induction left with
  | zero => intro a h1 h2 h3 _; omega
  | succ l ih =>
    intro a h1 h2 h3 hfail
    by_cases hak : a = k
    · subst hak
      rw [cloneBranchGo_ok_unfold outcome a l entries hok,
        if_pos (by rw [hempty]; rfl)]
      exact ⟨rfl, by simp⟩
    · have hlt : a < k := by omega
      obtain ⟨b, hb⟩ := hfail a (le_refl a) hlt
      obtain ⟨l', rfl⟩ : ∃ l', l = l' + 1 := ⟨l - 1, by omega⟩
      have hr := ih (a + 1) (by omega) (by omega) (by omega)
        (fun j hj1 hj2 => hfail j (by omega) hj2)
      rw [cloneBranchGo_fail_step outcome a l' b hb]
      exact ⟨hr.1, List.mem_append_right _ hr.2⟩

/-- C8: a branch clone whose resulting directory contains no entries
other than `.git` is removed and reported as a failure, whatever
attempt it happens on. -/
theorem cloneBranch_empty_clone_fails (outcome : Nat → CloneOutcome)
    (retries k : Nat) (entries : List String)
    (hk1 : 1 ≤ k) (hk2 : k ≤ retries)
    (hfail : ∀ j, 1 ≤ j → j < k → ∃ b, outcome j = CloneOutcome.fail b)
    (hok : outcome k = CloneOutcome.ok entries)
    (hempty : entries.filter (fun item => item != ".git") = []) :
    (cloneBranch false outcome retries).1 = false ∧
    CloneEv.rmOp k ∈ (cloneBranch false outcome retries).2 :=
  cloneBranchGo_empty_clone outcome k entries hok hempty retries 1
    (le_refl 1) hk1 (by omega) hfail

/-- Witness for C8: a first-attempt clone producing only `.git`. -/
theorem cloneBranch_empty_clone_fails_witness :
    ((fun _ => CloneOutcome.ok [".git"]) 1 = CloneOutcome.ok [".git"] ∧
      ([".git"] : List String).filter (fun item => item != ".git") = []) ∧
    (cloneBranch false (fun _ => CloneOutcome.ok [".git"]) 3).1 = false ∧
    CloneEv.rmOp 1 ∈ (cloneBranch false (fun _ => CloneOutcome.ok [".git"]) 3).2 :=
  ⟨⟨rfl, by decide⟩,
    cloneBranch_empty_clone_fails (fun _ => CloneOutcome.ok [".git"]) 3 1
      [".git"] (by decide) (by decide)
      (fun j h1 h2 => absurd h2 (by omega)) rfl (by decide)⟩

/-- If every branch clone fails, the per-branch loop leaves the success
counter untouched and counts every branch as failed. -/
theorem branchLoopGo_all_fail (branchOk : Nat → Bool)
    (hall : ∀ j, branchOk j = false) :
    ∀ (l : List String) (i s f : Nat),
      branchLoopGo branchOk i s f l = (s, f + l.length) := by
  intro l
  induction l with
  | nil => intro i s f; simp [branchLoopGo]
  | cons x rest ih =>
    intro i s f
    rw [branchLoopGo, hall i]
    simp only [Bool.false_eq_true, if_false, ih]
    simp [Prod.ext_iff]
    omega

/-- Every branch is counted exactly once by the per-branch loop: the two
counters always sum to their initial values plus the number of
branches. -/
theorem branchLoopGo_sum (branchOk : Nat → Bool) :
    ∀ (l : List String) (i s f : Nat),
      (branchLoopGo branchOk i s f l).1 + (branchLoopGo branchOk i s f l).2 =
        s + f + l.length := by
  intro l
  induction l with
  | nil => intro i s f; simp [branchLoopGo]
  | cons x rest ih =>
    intro i s f
    rw [branchLoopGo]
    cases hb : branchOk i
    · simp only [Bool.false_eq_true, if_false, ih, List.length_cons]
      omega
    · simp only [if_true, ih, List.length_cons]
      omega

/-- C9: in branch mode, a repository whose non-empty branch list fails
on every branch gets its directory removed, yields
`{success: false, 0, branchCount}`, and the orchestrator's fold counts
it in the failed-repositories total. -/
theorem cloneRepo_all_branches_fail (branches : List String)
    (branchOk : Nat → Bool) (t : Totals) (hne : branches ≠ [])
    (hall : ∀ j, branchOk j = false) :
    cloneRepo branches branchOk =
      ({ success := false, successfulBranches := 0,
         failedBranches := branches.length }, true) ∧
    (foldResult t (cloneRepo branches branchOk).1).failedRepos =
      t.failedRepos + 1 := by
  have hlen : branches.length ≠ 0 := fun h => hne (List.length_eq_zero.mp h)
  have hloop := branchLoopGo_all_fail branchOk hall branches 0 0 0
  have hres : cloneRepo branches branchOk =
      ({ success := false, successfulBranches := 0,
         failedBranches := branches.length }, true) := by
    rw [cloneRepo, if_neg hlen, hloop]
    simp
  exact ⟨hres, by rw [hres]; simp [foldResult]⟩

/-- Witness for C9 with two branches that both fail. -/
theorem cloneRepo_all_branches_fail_witness :
    ((["main", "dev"] : List String) ≠ [] ∧
      cloneRepo ["main", "dev"] (fun _ => false) =
        ({ success := false, successfulBranches := 0, failedBranches := 2 },
         true)) ∧
    (foldResult ⟨5, 7, 1, 2⟩
        (cloneRepo ["main", "dev"] (fun _ => false)).1).failedRepos = 7 + 1 := by
  have h := cloneRepo_all_branches_fail ["main", "dev"] (fun _ => false)
    ⟨5, 7, 1, 2⟩ (by decide) (fun _ => rfl)
  exact ⟨⟨by decide, h.1⟩, h.2⟩

/-- C10: in branch mode with a non-empty branch list (non-throwing
path), the per-repository result counts every branch exactly once —
`successfulBranches + failedBranches` equals the number of branches —
and `success` holds exactly when at least one branch succeeded. -/
theorem cloneRepo_branch_accounting (branches : List String)
    (branchOk : Nat → Bool) (hne : branches ≠ []) :
    (cloneRepo branches branchOk).1.successfulBranches +
      (cloneRepo branches branchOk).1.failedBranches = branches.length ∧
    ((cloneRepo branches branchOk).1.success = true ↔
      0 < (cloneRepo branches branchOk).1.successfulBranches) := by
  have hlen : branches.length ≠ 0 := fun h => hne (List.length_eq_zero.mp h)
  have hsum := branchLoopGo_sum branchOk branches 0 0 0
  rw [cloneRepo, if_neg hlen]
  refine ⟨by simpa using hsum, ?_⟩
  simp [decide_eq_true_iff]

/-- Witness for C10 with one succeeding and one failing branch. -/
theorem cloneRepo_branch_accounting_witness :
    ((["main", "dev"] : List String) ≠ []) ∧
    (cloneRepo ["main", "dev"] (fun i => i == 0)).1.successfulBranches +
      (cloneRepo ["main", "dev"] (fun i => i == 0)).1.failedBranches = 2 ∧
    ((cloneRepo ["main", "dev"] (fun i => i == 0)).1.success = true ↔
      0 < (cloneRepo ["main", "dev"] (fun i => i == 0)).1.successfulBranches) :=
  ⟨by decide,
    (cloneRepo_branch_accounting ["main", "dev"] (fun i => i == 0)
      (by decide)).1,
    (cloneRepo_branch_accounting ["main", "dev"] (fun i => i == 0)
      (by decide)).2⟩

end Cloner
